import Mathlib

/-!
# Verification of the broker-forms questionnaire page

Shallow embedding of `src/app/f/[formId]/page.tsx`: the data model
(`Form`, `Question`, `Payload`, `TableRow`), the state-mutation function
`mutateAnswer`, the currency value codec inside `renderQuestion`'s
`"currency"` arm, the multi-select toggle logic, the table sub-editor's
`addRow` index rule, and the submit flow `handleSubmit` together with the
submit button's `disabled` condition.

JavaScript numbers appearing as parse results are modelled as
`Option ℚ`, with `none` standing for `NaN`; machine rounding
(`Math.round`) is the round-half-up `round` on ℚ, which agrees with
JavaScript on every value representable here.
-/

namespace BrokerForms

/-- A persisted currency answer, the object
`{ amount_cents: Math.round(num * 100), currency: ... }` built in the
`"currency"` arm of `renderQuestion`.  `amount_cents` is `none` when the
JavaScript computation produced `NaN`. -/
structure CurrencyAnswer where
  amount_cents : Option ℤ
  currency : String
deriving DecidableEq, Repr

/-- The variant-typed `answer` field of a `Question` (`any` in the source;
we enumerate the shapes the page actually reads and writes). -/
inductive Answer where
  | null
  | bool (b : Bool)
  | str (s : String)
  | strs (l : List String)
  | num (n : Option ℚ)
  | currency (c : CurrencyAnswer)
deriving DecidableEq, Repr

/-- One entry of a table question's `table_rows`: `{ row_index, row }`.
The free-form `row` field map is a key/value association list. -/
structure TableRow where
  row_index : ℕ
  row : List (String × Answer)
deriving DecidableEq, Repr

/-- One option of a choice question: `{ value, label, order }`. -/
structure OptionItem where
  value : String
  label : String
  order : ℤ
deriving DecidableEq, Repr

/-- The slice of a question's `config` the page consumes: only
`config?.currency` is ever read. -/
structure Config where
  currency : Option String
deriving DecidableEq, Repr

/-- The `Question` record of the source. -/
structure Question where
  code : String
  qtype : String
  label : String
  help : Option String
  config : Option Config
  options : List OptionItem
  answer : Answer
  table_rows : List TableRow
deriving DecidableEq, Repr

/-- The `form` part of the payload. -/
structure Form where
  id : String
  status : String
  company : Option String
  contact : Option String
deriving DecidableEq, Repr

/-- The `Payload` aggregate `{ form, questions }`. -/
structure Payload where
  form : Form
  questions : List Question
deriving DecidableEq, Repr

/-- `findIndex`-then-assign on the questions list: replace the `answer`
field of the first question whose `code` matches, returning `none` when
no question matches (the `i === -1` branch of `mutateAnswer`). -/
def updateFirstAnswer (qs : List Question) (c : String) (v : Answer) :
    Option (List Question) :=
  match qs with
  | [] => none
  | q :: rest =>
    if q.code = c then some ({ q with answer := v } :: rest)
    else (updateFirstAnswer rest c v).map (fun l => q :: l)

/-- `mutateAnswer(code, next)` of the source: locate the question by code;
if absent return the prior payload unchanged; otherwise clone the payload
with exactly that question's `answer` replaced. -/
def mutateAnswer (p : Payload) (c : String) (v : Answer) : Payload :=
  match updateFirstAnswer p.questions c v with
  | none => p
  | some qs => { p with questions := qs }

theorem updateFirstAnswer_eq_none (qs : List Question) (c : String) (v : Answer)
    (h : ∀ q ∈ qs, q.code ≠ c) : updateFirstAnswer qs c v = none := by
  induction qs with
  | nil => rfl
  | cons q rest ih =>
    simp only [updateFirstAnswer]
    rw [if_neg (h q (List.mem_cons_self q rest))]
    rw [ih (fun q' hq' => h q' (List.mem_cons_of_mem q hq'))]
    rfl

theorem updateFirstAnswer_eq_some (qs : List Question) (c : String) (v : Answer)
    (h : ∃ q ∈ qs, q.code = c) :
    ∃ pre q post, qs = pre ++ q :: post ∧ q.code = c ∧
      (∀ q' ∈ pre, q'.code ≠ c) ∧
      updateFirstAnswer qs c v = some (pre ++ { q with answer := v } :: post) := by
  induction qs with
  | nil => simp at h
  | cons q0 rest ih =>
    by_cases h0 : q0.code = c
    · refine ⟨[], q0, rest, rfl, h0, by simp, ?_⟩
      simp [updateFirstAnswer, h0]
    · obtain ⟨q, hq, hqc⟩ := h
      rcases List.mem_cons.mp hq with h1 | h1
      · exact absurd (h1 ▸ hqc) h0
      · obtain ⟨pre, q', post, hsplit, hc', hpre, hupd⟩ := ih ⟨q, h1, hqc⟩
        refine ⟨q0 :: pre, q', post, by simp [hsplit], hc', ?_, ?_⟩
        · intro x hx
          rcases List.mem_cons.mp hx with h2 | h2
          · exact h2 ▸ h0
          · exact hpre x h2
        · simp [updateFirstAnswer, h0, hupd]

/-- **C7** — `mutateAnswer` for a question code not present in the current
payload returns the prior payload itself, unchanged, and does not fail. -/
theorem mutateAnswer_absent_code_noop (p : Payload) (c : String) (v : Answer)
    (h : ∀ q ∈ p.questions, q.code ≠ c) : mutateAnswer p c v = p := by
  unfold mutateAnswer
  rw [updateFirstAnswer_eq_none p.questions c v h]

/-- Witness for C7 at a concrete payload: the code `"q2"` is absent, so
`mutateAnswer` is the identity on this payload. -/
theorem mutateAnswer_absent_code_noop_witness :
    mutateAnswer
      ⟨⟨"f1", "draft", none, none⟩,
        [⟨"q1", "boolean", "L", none, none, [], Answer.null, []⟩]⟩
      "q2" (Answer.bool true)
    = ⟨⟨"f1", "draft", none, none⟩,
        [⟨"q1", "boolean", "L", none, none, [], Answer.null, []⟩]⟩ :=
  mutateAnswer_absent_code_noop _ "q2" (Answer.bool true) (by decide)

/-- **C6** — for a question code present in the payload, `mutateAnswer`
replaces exactly the `answer` field of the (first) question with that
code: the form metadata is unchanged, every question before and after the
matching one is unchanged, and the matching question keeps its code,
type, label, help, config, options and table rows while its answer
becomes the new value. -/
theorem mutateAnswer_frame (p : Payload) (c : String) (v : Answer)
    (h : ∃ q ∈ p.questions, q.code = c) :
    (mutateAnswer p c v).form = p.form ∧
    ∃ pre q post, p.questions = pre ++ q :: post ∧ q.code = c ∧
      (∀ q' ∈ pre, q'.code ≠ c) ∧
      (mutateAnswer p c v).questions = pre ++ { q with answer := v } :: post ∧
      ({ q with answer := v }).code = q.code ∧
      ({ q with answer := v }).qtype = q.qtype ∧
      ({ q with answer := v }).label = q.label ∧
      ({ q with answer := v }).help = q.help ∧
      ({ q with answer := v }).config = q.config ∧
      ({ q with answer := v }).options = q.options ∧
      ({ q with answer := v }).table_rows = q.table_rows ∧
      ({ q with answer := v }).answer = v := by
  obtain ⟨pre, q, post, hsplit, hc, hpre, hupd⟩ :=
    updateFirstAnswer_eq_some p.questions c v h
  unfold mutateAnswer
  rw [hupd]
  exact ⟨rfl, pre, q, post, hsplit, hc, hpre, rfl, rfl, rfl, rfl, rfl, rfl, rfl, rfl, rfl⟩

/-- Witness for C6 at a concrete two-question payload: updating `"q2"`
leaves the form and `"q1"` intact and replaces only `"q2"`'s answer. -/
theorem mutateAnswer_frame_witness :
    (mutateAnswer
      ⟨⟨"f1", "draft", some "Acme", none⟩,
        [⟨"q1", "text", "A", none, none, [], Answer.str "x", []⟩,
         ⟨"q2", "boolean", "B", none, none, [], Answer.null, []⟩]⟩
      "q2" (Answer.bool true)).form = ⟨"f1", "draft", some "Acme", none⟩ ∧
    (mutateAnswer
      ⟨⟨"f1", "draft", some "Acme", none⟩,
        [⟨"q1", "text", "A", none, none, [], Answer.str "x", []⟩,
         ⟨"q2", "boolean", "B", none, none, [], Answer.null, []⟩]⟩
      "q2" (Answer.bool true)).questions
      = [⟨"q1", "text", "A", none, none, [], Answer.str "x", []⟩,
         ⟨"q2", "boolean", "B", none, none, [], Answer.bool true, []⟩] := by
  have h := mutateAnswer_frame
    ⟨⟨"f1", "draft", some "Acme", none⟩,
      [⟨"q1", "text", "A", none, none, [], Answer.str "x", []⟩,
       ⟨"q2", "boolean", "B", none, none, [], Answer.null, []⟩]⟩
    "q2" (Answer.bool true)
    ⟨⟨"q2", "boolean", "B", none, none, [], Answer.null, []⟩, by decide, rfl⟩
  exact ⟨h.1, by decide⟩

/-- The index computation of `addRow` in `TableEditor`:
`localRows.length ? Math.max(...localRows.map(r => r.row_index)) + 1 : 0`. -/
def nextRowIndex (rows : List TableRow) : ℕ :=
  match rows.map (fun r => r.row_index) with
  | [] => 0
  | i :: is => (is.foldl max i) + 1

theorem init_le_foldl_max (is : List ℕ) (i : ℕ) : i ≤ is.foldl max i := by
  induction is generalizing i with
  | nil => exact le_refl i
  | cons j js ih =>
    simp only [List.foldl_cons]
    exact (le_max_left i j).trans (ih (max i j))

theorem le_foldl_max (i : ℕ) (is : List ℕ) (x : ℕ) (hx : x = i ∨ x ∈ is) :
    x ≤ is.foldl max i := by
  induction is generalizing i with
  | nil =>
    rcases hx with h | h
    · exact le_of_eq h
    · simp at h
  | cons j js ih =>
    simp only [List.foldl_cons]
    rcases hx with h | h
    · rw [h]; exact (le_max_left i j).trans (init_le_foldl_max js (max i j))
    · rcases List.mem_cons.mp h with h | h
      · rw [h]; exact (le_max_right i j).trans (init_le_foldl_max js (max i j))
      · exact ih (max i j) (Or.inr h)

/-- **C4** — `addRow` assigns the new row the index
`max existing row_index + 1`, or `0` on an empty collection: on an empty
table the new index is `0`, on a table with indices `{0,1,3}` it is `4`,
and every existing index is strictly below the new one, so indices are
never reused. -/
theorem nextRowIndex_spec (rows : List TableRow) :
    nextRowIndex [] = 0 ∧
    nextRowIndex [⟨0, []⟩, ⟨1, []⟩, ⟨3, []⟩] = 4 ∧
    (∀ r ∈ rows, r.row_index < nextRowIndex rows) := by
  refine ⟨rfl, by decide, ?_⟩
  intro r hr
  unfold nextRowIndex
  cases hrows : rows.map (fun r => r.row_index) with
  | nil => simp [List.map_eq_nil_iff] at hrows; simp [hrows] at hr
  | cons i is =>
    have hmem : r.row_index ∈ i :: is := by
      rw [← hrows]; exact List.mem_map_of_mem _ hr
    have hle := le_foldl_max i is r.row_index (by
      rcases List.mem_cons.mp hmem with h | h
      · exact Or.inl h
      · exact Or.inr h)
    change r.row_index < is.foldl max i + 1
    omega

/-- Witness for C4: on rows with indices `{0,1,3}` every index is below
the freshly assigned index `4`. -/
theorem nextRowIndex_spec_witness :
    nextRowIndex [] = 0 ∧
    nextRowIndex [⟨0, []⟩, ⟨1, []⟩, ⟨3, []⟩] = 4 ∧
    (⟨3, []⟩ : TableRow).row_index
      < nextRowIndex [⟨0, []⟩, ⟨1, []⟩, ⟨3, []⟩] := by
  have h := nextRowIndex_spec [⟨0, []⟩, ⟨1, []⟩, ⟨3, []⟩]
  exact ⟨h.1, h.2.1, h.2.2 ⟨3, []⟩ (by decide)⟩

/-- Outcome of one remote RPC call, as observed by the awaiting caller:
`supabase.rpc` resolves with either no error or an error message, and
`upsertAnswer` / `upsertTableRow` rethrow the error. -/
inductive RpcResult where
  | success
  | failure (msg : String)
deriving DecidableEq, Repr

/-- The widget edit path of `renderQuestion`:
`await upsertAnswer(q.code, v); mutateAnswer(q.code, v);`.
When the awaited upsert throws, the handler aborts before `mutateAnswer`
runs, so the payload is untouched and the error is surfaced; when it
succeeds, the payload is mutated.  Returns the resulting payload and the
surfaced error, if any. -/
def editCommit (p : Payload) (c : String) (v : Answer) (r : RpcResult) :
    Payload × Option String :=
  match r with
  | .failure m => (p, some m)
  | .success => (mutateAnswer p c v, none)

/-- The `addRow` path of `TableEditor`:
`await onSave(code, idx, newRow.row); setLocalRows(prev => [...prev, newRow]);`.
When the awaited save throws, the append never runs; when it succeeds the
new empty row, at index `nextRowIndex rows`, is appended to the draft. -/
def addRowCommit (rows : List TableRow) (r : RpcResult) :
    List TableRow × Option String :=
  match r with
  | .failure m => (rows, some m)
  | .success => (rows ++ [⟨nextRowIndex rows, []⟩], none)

/-- **C1** — on both edit commit paths the local state changes only when
the remote upsert succeeds: on failure, the payload and the draft row
collection are left entirely unchanged (and the error is surfaced); on
success, the widget path applies exactly `mutateAnswer` and the table
path appends exactly the new empty row. -/
theorem commit_only_on_success (p : Payload) (c : String) (v : Answer)
    (rows : List TableRow) (m : String) :
    (editCommit p c v (RpcResult.failure m)).1 = p ∧
    (editCommit p c v (RpcResult.failure m)).2 = some m ∧
    (addRowCommit rows (RpcResult.failure m)).1 = rows ∧
    (addRowCommit rows (RpcResult.failure m)).2 = some m ∧
    (editCommit p c v RpcResult.success).1 = mutateAnswer p c v ∧
    (addRowCommit rows RpcResult.success).1
      = rows ++ [⟨nextRowIndex rows, []⟩] :=
  ⟨rfl, rfl, rfl, rfl, rfl, rfl⟩

/-- `cs.all Char.isDigit` for the numeral parts of a decimal string. -/
def allDigits (cs : List Char) : Bool := cs.all Char.isDigit

/-- Value of a list of decimal digit characters, most significant first. -/
def digitsToNat (cs : List Char) : ℕ :=
  cs.foldl (fun n c => 10 * n + (c.toNat - 48)) 0

/-- The exact value of a JavaScript decimal numeral: the integer
`num` divided by `10 ^ exp`.  Kept in this scaled-integer form so that
every codec computation is kernel-computable; `Dec.toRat` recovers the
rational value. -/
structure Dec where
  num : ℤ
  exp : ℕ
deriving DecidableEq, Repr

/-- The rational value `num / 10 ^ exp` denoted by a `Dec`. -/
def Dec.toRat (d : Dec) : ℚ := (d.num : ℚ) / (10 : ℚ) ^ d.exp

/-- An unsigned JavaScript decimal numeral `digits [ "." digits ]` with at
least one digit; anything else converts to `NaN` (`none`).  `Number`
accepts `"12."` and `".5"` but rejects `"."`, a second dot, and any
non-digit character. -/
def parseUnsigned (cs : List Char) : Option Dec :=
  match cs.span (fun c => c ≠ '.') with
  | (intPart, []) =>
    if allDigits intPart ∧ intPart ≠ [] then some ⟨digitsToNat intPart, 0⟩
    else none
  | (intPart, _ :: fracPart) =>
    if allDigits intPart ∧ allDigits fracPart ∧ (intPart ≠ [] ∨ fracPart ≠ []) then
      some ⟨digitsToNat intPart * 10 ^ fracPart.length + digitsToNat fracPart,
        fracPart.length⟩
    else none

/-- Leading- and trailing-whitespace removal, as `Number` applies to its
string argument before conversion. -/
def jsTrim (cs : List Char) : List Char :=
  ((cs.dropWhile Char.isWhitespace).reverse.dropWhile Char.isWhitespace).reverse

/-- Modelled JavaScript `Number(s)` conversion, restricted to the plain
decimal numerals a currency field receives (no exponent, hexadecimal or
`Infinity` forms): whitespace-trimmed empty input converts to `0`, an
optionally signed decimal numeral to its value, and everything else to
`NaN` (`none`). -/
def jsNumber (s : String) : Option Dec :=
  match jsTrim s.toList with
  | [] => some ⟨0, 0⟩
  | '-' :: rest => (parseUnsigned rest).map (fun d => ⟨-d.num, d.exp⟩)
  | '+' :: rest => parseUnsigned rest
  | cs => parseUnsigned cs

/-- JavaScript `String.prototype.replace(",", ".")`: only the first comma
is replaced. -/
def replaceFirstComma : List Char → List Char
  | [] => []
  | c :: cs => if c = ',' then '.' :: cs else c :: replaceFirstComma cs

/-- The cleaning step of the currency arm:
`e.target.value.replace(/\./g, "").replace(",", ".")` — every `.`
grouping separator removed, then the first `,` turned into `.`. -/
def currencyClean (s : String) : String :=
  String.mk (replaceFirstComma (s.toList.filter (fun c => c ≠ '.')))

/-- `Number(clean || 0)` of the currency arm: the empty cleaned string is
falsy, so `Number` receives the number `0`; otherwise the cleaned string
is converted. -/
def currencyParse (s : String) : Option Dec :=
  let clean := currencyClean s
  if clean = "" then some ⟨0, 0⟩ else jsNumber clean

/-- `Math.round(num * 100)` for the exact decimal `num = n / 10 ^ e`:
`⌊num * 100 + 1/2⌋ = (2 * (n * 100) + 10 ^ e) / (2 * 10 ^ e)` with
floor (here Euclidean, the divisor being positive) integer division.
`jsRound100_eq_round` below proves this equals Mathlib's `round` of the
rational value times 100; JavaScript `Math.round` likewise rounds half
toward positive infinity. -/
def jsRound100 (d : Dec) : ℤ :=
  (2 * (d.num * 100) + 10 ^ d.exp) / (2 * 10 ^ d.exp)

/-- `q.config?.currency || "BRL"`: a missing config, a missing currency
field, or an empty (falsy) currency string all fall back to `"BRL"`. -/
def configCurrency (cfg : Option Config) : String :=
  match cfg with
  | some c =>
    match c.currency with
    | some s => if s = "" then "BRL" else s
    | none => "BRL"
  | none => "BRL"

/-- The currency encoder of `renderQuestion`: the persisted payload
`{ amount_cents: Math.round(num * 100), currency: q.config?.currency || "BRL" }`
where `num = Number(clean || 0)`.  `Math.round NaN = NaN`, kept as
`none`; otherwise `Math.round` rounds half toward positive infinity,
which is `round` on ℚ. -/
def currencyEncode (s : String) (cfg : Option Config) : CurrencyAnswer :=
  { amount_cents := (currencyParse s).map jsRound100,
    currency := configCurrency cfg }

/-- Two-digit rendering of the fractional cents, `0 ≤ k < 100`. -/
def twoDigitStr (k : ℕ) : String :=
  if k < 10 then "0" ++ toString k else toString k

/-- `(cents / 100).toFixed(2)` for an integer number of cents: the
quotient has at most two decimals, so `toFixed` renders it exactly, with
`.` as the decimal separator (JavaScript `toFixed` never localizes). -/
def toFixed2 (cents : ℤ) : String :=
  (if cents < 0 then "-" else "") ++
    toString (cents.natAbs / 100) ++ "." ++ twoDigitStr (cents.natAbs % 100)

/-- The currency display computation of `renderQuestion`:
`(q.answer && q.answer.amount_cents) ? (q.answer.amount_cents / 100).toFixed(2) : ""`.
A null answer, an answer of another shape, a `NaN` amount and a zero
amount are all falsy and display as the empty string. -/
def currencyDisplay (ans : Answer) : String :=
  match ans with
  | .currency c =>
    match c.amount_cents with
    | some z => if z = 0 then "" else toFixed2 z
    | none => ""
  | _ => ""

/-- The integer computation `jsRound100` is exactly `Math.round` of the
parsed value times 100: rounding half toward positive infinity, as
Mathlib's `round` on ℚ does. -/
theorem jsRound100_eq_round (d : Dec) :
    jsRound100 d = round (Dec.toRat d * 100) := by
  rw [round_eq]
  have key : Dec.toRat d * 100 + 1 / 2
      = ((2 * (d.num * 100) + 10 ^ d.exp : ℤ) : ℚ)
        / ((2 * 10 ^ d.exp : ℕ) : ℚ) := by
    unfold Dec.toRat
    have h10 : ((10 : ℚ) ^ d.exp) ≠ 0 := by positivity
    field_simp
    ring
  rw [key, Rat.floor_intCast_div_natCast]
  unfold jsRound100
  push_cast
  rfl

/-- **C2** — the currency round-trip fails on the code: display `"12,50"`
encodes to `{amount_cents: 1250, currency: "BRL"}` as claimed, but that
persisted value decodes back to display `"12.50"` (with `toFixed`'s `.`
decimal separator), not the original `"12,50"`. -/
theorem currency_roundtrip_breaks :
    currencyEncode "12,50" none = ⟨some 1250, "BRL"⟩ ∧
    currencyDisplay (Answer.currency (currencyEncode "12,50" none)) = "12.50" ∧
    ("12.50" : String) ≠ "12,50" := by
  refine ⟨?_, ?_, by decide⟩ <;> decide

/-- Re-encoding the displayed round-trip output multiplies the amount by
100: the decoded `"12.50"` parses back to `125000` cents, because the `.`
it contains is stripped as a grouping separator. -/
theorem currency_reencode_inflates :
    currencyEncode (currencyDisplay (Answer.currency ⟨some 1250, "BRL"⟩)) none
      = ⟨some 125000, "BRL"⟩ := by
  decide

/-- Counterexample for C3 as stated: on the non-numeric input `"abc"` the
parsed value is `NaN`, so `amount_cents` is `NaN` (`none`), not `0`. -/
theorem currency_nonnumeric_not_zero :
    (currencyEncode "abc" none).amount_cents = none ∧
    (currencyEncode "abc" none).amount_cents ≠ some 0 := by
  constructor <;> decide

theorem currencyClean_filter_dots (s : String) :
    currencyClean (String.mk (s.toList.filter (fun c => c ≠ '.'))) =
      currencyClean s := by
  simp [currencyClean, List.filter_filter]

/-- **C3 (amended)** — the codec removes all `.` grouping separators,
then replaces the first `,` with `.`, then parses as a JavaScript number;
the persisted value is `{amount_cents: round(parsed * 100), currency:
config currency or "BRL"}`; the empty input parses to `0` (so
`amount_cents` is `0`), but a non-numeric input parses to `NaN`, so its
`amount_cents` is `NaN`, not `0`. -/
theorem currencyEncode_spec (s : String) (cfg : Option Config) :
    (currencyEncode s cfg).currency = configCurrency cfg ∧
    configCurrency none = "BRL" ∧
    (currencyEncode s cfg).amount_cents
      = (currencyParse s).map (fun d => round (Dec.toRat d * 100)) ∧
    currencyClean (String.mk (s.toList.filter (fun c => c ≠ '.')))
      = currencyClean s ∧
    (currencyEncode "" cfg).amount_cents = some 0 ∧
    (currencyEncode "1.234,56" cfg).amount_cents = some 123456 ∧
    (currencyEncode "abc" cfg).amount_cents = none := by
  refine ⟨rfl, rfl, ?_, currencyClean_filter_dots s, ?_, ?_, ?_⟩
  · show (currencyParse s).map jsRound100 = _
    cases h : currencyParse s with
    | none => rfl
    | some d => simp [jsRound100_eq_round]
  all_goals simp only [currencyEncode]
  all_goals decide

/-- **C10** — a persisted currency answer with a zero amount decodes to
the empty display string, identical to the display for a null answer, and
different from a formatted zero. -/
theorem currency_zero_displays_empty (cur : String) :
    currencyDisplay (Answer.currency ⟨some 0, cur⟩) = "" ∧
    currencyDisplay Answer.null = "" ∧
    currencyDisplay (Answer.currency ⟨some 0, cur⟩)
      = currencyDisplay Answer.null ∧
    toFixed2 0 = "0.00" := by
  refine ⟨rfl, rfl, rfl, by decide⟩

/-- JavaScript `Set.prototype.add` as observed through iteration order:
a value already present keeps its position, a new value is appended. -/
def insertUnique (acc : List String) (x : String) : List String :=
  if x ∈ acc then acc else acc ++ [x]

/-- `Array.from(new Set(l))`: first occurrences of the elements of `l`,
in insertion order. -/
def jsSet (l : List String) : List String := l.foldl insertUnique []

/-- The multi-select checkbox handler of `renderQuestion`:
`const next = new Set(Array.isArray(q.answer) ? q.answer : []);
if (e.target.checked) next.add(o.value); else next.delete(o.value);
const arr = Array.from(next);`. -/
def multiToggle (answer : List String) (v : String) (checked : Bool) :
    List String :=
  let s := jsSet answer
  if checked then insertUnique s v else s.filter (fun w => w ≠ v)

theorem mem_insertUnique (acc : List String) (x y : String) :
    y ∈ insertUnique acc x ↔ y ∈ acc ∨ y = x := by
  unfold insertUnique
  by_cases h : x ∈ acc
  · simp only [if_pos h]
    constructor
    · exact Or.inl
    · rintro (hy | rfl)
      · exact hy
      · exact h
  · simp [if_neg h]

theorem mem_foldl_insertUnique (l acc : List String) (y : String) :
    y ∈ l.foldl insertUnique acc ↔ y ∈ acc ∨ y ∈ l := by
  induction l generalizing acc with
  | nil => simp
  | cons x xs ih =>
    simp only [List.foldl_cons, ih, mem_insertUnique, List.mem_cons]
    tauto

theorem mem_jsSet (l : List String) (y : String) : y ∈ jsSet l ↔ y ∈ l := by
  unfold jsSet
  rw [mem_foldl_insertUnique]
  simp

/-- Counterexample for C5 as stated: with options `["a", "b", "c"]` and
prior answer `["a", "c"]`, checking `"b"` yields `["a", "c", "b"]` — the
newly toggled value is appended at the end, so the resulting list is not
ordered like the options list. -/
theorem multiToggle_not_options_ordered :
    multiToggle ["a", "c"] "b" true = ["a", "c", "b"] ∧
    ¬ (multiToggle ["a", "c"] "b" true).Sublist ["a", "b", "c"] := by
  constructor <;> decide

/-- **C5 (amended)** — toggling one option value preserves every
previously selected value other than the toggled one; the toggled value
is present exactly when the checkbox was checked; and the values other
than the toggled one keep the relative order of the prior answer list
(first occurrences) — not the order of the options list. -/
theorem multiToggle_preserves (answer : List String) (v : String)
    (checked : Bool) :
    (∀ w ∈ answer, w ≠ v → w ∈ multiToggle answer v checked) ∧
    (v ∈ multiToggle answer v checked ↔ checked = true) ∧
    ((multiToggle answer v checked).filter (fun w => w ≠ v)).Sublist
      (jsSet answer) := by
  refine ⟨?_, ?_, ?_⟩
  · intro w hw hne
    unfold multiToggle
    cases checked with
    | false =>
      simp only [if_neg Bool.false_ne_true, List.mem_filter,
        decide_eq_true_eq]
      exact ⟨(mem_jsSet answer w).mpr hw, hne⟩
    | true =>
      simp only [if_true, mem_insertUnique]
      exact Or.inl ((mem_jsSet answer w).mpr hw)
  · unfold multiToggle
    cases checked with
    | false =>
      simp only [if_neg Bool.false_ne_true, List.mem_filter,
        decide_eq_true_eq]
      simp
    | true =>
      simp only [if_true, mem_insertUnique]
      simp
  · unfold multiToggle
    cases checked with
    | false =>
      simp only [if_neg Bool.false_ne_true]
      exact (List.filter_sublist _).trans (List.filter_sublist _)
    | true =>
      simp only [if_true]
      unfold insertUnique
      by_cases h : v ∈ jsSet answer
      · simp only [if_pos h]
        exact List.filter_sublist _
      · simp only [if_neg h]
        rw [List.filter_append]
        simp only [List.filter_cons, List.filter_nil]
        rw [if_neg (by simp)]
        simp

/-- Witness for C5 (amended) at a concrete toggle: after checking `"b"`
over prior answer `["a", "c"]`, the untouched value `"a"` is still
selected. -/
theorem multiToggle_preserves_witness :
    "a" ∈ multiToggle ["a", "c"] "b" true :=
  (multiToggle_preserves ["a", "c"] "b" true).1 "a" (by decide) (by decide)

/-- Result of the `submit_form` RPC as `handleSubmit` observes it: a
transport error, a structured ok, or a structured not-ok carrying the
`missing_required` field when present. -/
inductive SubmitResult where
  | rpcError (msg : String)
  | ok
  | notOk (missing : Option ℕ)
deriving DecidableEq, Repr

/-- What one run of `handleSubmit` leaves behind after the submit RPC has
settled: the payload state, the alert message shown, and whether a
payload re-fetch was issued. -/
structure SubmitOutcome where
  payload : Payload
  alertMsg : String
  refetched : Bool
deriving DecidableEq, Repr

/-- The branch structure of `handleSubmit` after `submit_form` settles:
a transport error alerts `"Erro: " + message` and stops; `data?.ok`
truthy alerts success and re-fetches the payload (replacing it only when
the re-fetch itself succeeds); otherwise the missing-required alert is
shown with `data?.missing_required ?? "?"` and nothing else happens. -/
def handleSubmitResult (p : Payload) (r : SubmitResult)
    (refetch : Except String Payload) : SubmitOutcome :=
  match r with
  | .rpcError m => ⟨p, "Erro: " ++ m, false⟩
  | .ok =>
    match refetch with
    | .ok p2 => ⟨p2, "Formulário enviado!", true⟩
    | .error _ => ⟨p, "Formulário enviado!", true⟩
  | .notOk m =>
    ⟨p, "Campos obrigatórios faltando: " ++
      (match m with | some n => toString n | none => "?"), false⟩

/-- **C9** — on the structured not-ok result `{ok: false,
missing_required: 2}` the user is alerted with exactly the count `2`, the
payload is left unchanged (so the form status stays whatever it was,
`"draft"` in the scenario), and no re-fetch is issued; a re-fetch is
issued exactly on an ok result. -/
theorem submit_notOk_informs_without_mutation (p : Payload)
    (f : Except String Payload) :
    (handleSubmitResult p (SubmitResult.notOk (some 2)) f).alertMsg
      = "Campos obrigatórios faltando: 2" ∧
    (handleSubmitResult p (SubmitResult.notOk (some 2)) f).payload = p ∧
    (handleSubmitResult p (SubmitResult.notOk (some 2)) f).payload.form.status
      = p.form.status ∧
    (handleSubmitResult p (SubmitResult.notOk (some 2)) f).refetched = false ∧
    (∀ r, (handleSubmitResult p r f).refetched = true → r = SubmitResult.ok) := by
  refine ⟨rfl, rfl, rfl, rfl, ?_⟩
  intro r hr
  cases r with
  | rpcError m => simp [handleSubmitResult] at hr
  | ok => rfl
  | notOk m => simp [handleSubmitResult] at hr

/-- Witness for C9 at a concrete payload: the refetch-only-on-ok part
applied to an actual ok result. -/
theorem submit_notOk_informs_without_mutation_witness :
    SubmitResult.ok = SubmitResult.ok :=
  (submit_notOk_informs_without_mutation
      ⟨⟨"f1", "draft", none, none⟩, []⟩
      (Except.error "down")).2.2.2.2 SubmitResult.ok rfl

/-- The submit button's guard:
`disabled={submitting || payload.form.status === "submitted"}`. -/
def submitDisabled (submitting : Bool) (p : Payload) : Bool :=
  submitting || (p.form.status == "submitted")

/-- The page state the submit flow observes: the current payload and the
`submitting` in-flight flag. -/
structure UiState where
  payload : Payload
  submitting : Bool
deriving DecidableEq, Repr

/-- The four remote calls the page can issue. -/
inductive RpcCall where
  | getFormPayload
  | upsertAnswerCall (code : String) (value : Answer)
  | upsertTableRowCall (code : String) (rowIndex : ℕ)
  | submitForm
deriving DecidableEq, Repr

/-- Event-step relation of the rendered page, labelled with the remote
calls the event issues.  `clickSubmit` is possible only while the button
is enabled — a disabled button fires no `onClick` — and is the only event
that issues `submit_form`; `submitSettled` covers the rest of
`handleSubmit` once the RPC resolves (clearing the in-flight flag,
re-fetching exactly on ok); `editAnswer` is a widget edit running the
upsert-then-commit path. -/
inductive Step : UiState → List RpcCall → UiState → Prop where
  | clickSubmit (s : UiState)
      (h : submitDisabled s.submitting s.payload = false) :
      Step s [RpcCall.submitForm] ⟨s.payload, true⟩
  | submitSettled (s : UiState) (r : SubmitResult)
      (f : Except String Payload) :
      Step s
        (match r with | SubmitResult.ok => [RpcCall.getFormPayload] | _ => [])
        ⟨(handleSubmitResult s.payload r f).payload, false⟩
  | editAnswer (s : UiState) (c : String) (v : Answer) (r : RpcResult) :
      Step s [RpcCall.upsertAnswerCall c v]
        ⟨(editCommit s.payload c v r).1, s.submitting⟩

/-- **C8** — no step from a state whose form status is `"submitted"` or
whose submission is in flight issues a `submit_form` call: the only step
that issues one is the click on the submit button, and that click
requires the button's `disabled` guard to be off, i.e. `submitting`
false and status not `"submitted"`. -/
theorem no_submit_when_disabled (s s' : UiState) (calls : List RpcCall)
    (hstep : Step s calls s')
    (h : s.submitting = true ∨ s.payload.form.status = "submitted") :
    RpcCall.submitForm ∉ calls := by
  cases hstep with
  | clickSubmit hd =>
    exfalso
    unfold submitDisabled at hd
    rcases h with h | h
    · rw [h] at hd
      simp at hd
    · rw [h] at hd
      simp at hd
  | submitSettled r f =>
    cases r <;> simp
  | editAnswer c v r =>
    simp

/-- Witness for C8: from a state with status `"submitted"`, the settling
of an errored submit RPC is a step, and it issues no `submit_form`
call. -/
theorem no_submit_when_disabled_witness :
    RpcCall.submitForm
      ∉ ([] : List RpcCall) :=
  no_submit_when_disabled
    ⟨(⟨⟨"f1", "submitted", none, none⟩, []⟩ : Payload), false⟩
    ⟨(handleSubmitResult (⟨⟨"f1", "submitted", none, none⟩, []⟩ : Payload)
        (SubmitResult.rpcError "x") (Except.error "e")).payload, false⟩
    []
    (Step.submitSettled ⟨(⟨⟨"f1", "submitted", none, none⟩, []⟩ : Payload), false⟩
      (SubmitResult.rpcError "x") (Except.error "e"))
    (Or.inr rfl)

end BrokerForms
